import Mathlib

/-!
Shallow embedding of the data-access and authorization layer of the iBuddy
repository (`app/models/user.server.ts` and `app/models/mentee.server.ts`).

Strings are modelled as `List Char` (`Str`), so that all operations reduce in
the kernel; JavaScript `toLowerCase` is modelled character-wise (ASCII-faithful)
and JavaScript string `<` / `>` as lexicographic comparison of characters,
which agrees with UTF-16 code-unit comparison on all strings appearing here.

The DynamoDB tables are modelled as lists of records:
the `users` table as `List User` keyed by `id`, the `passwords` table as
`List PasswordRecord` keyed by `userId`, and the single-table `mentees`
collection as `List Item`, an item being a `(pk, sk)` composite key plus a
payload that is either a mentee record or a note record.  `put` replaces the
item with the same key, `delete` removes it, and queries are filters — the
net observable semantics of the store calls made by the source.

Effectful inputs of the source are passed as explicit parameters:
`bcrypt.hash` / `bcrypt.compare` as function parameters, `cuid()` as an `id`
parameter, and `new Date()` / date parsing as a `now : Int` together with a
`parse : Str → Option Int` parameter (`parse` returning `none` models an
invalid date, which compares false in JavaScript).
-/

namespace IBuddy

/-- Strings, modelled as their character lists. -/
abbrev Str := List Char

/-- Coerce a Lean string literal to the character-list model. -/
def str (s : String) : Str := s.data

/-- JavaScript `toLowerCase`, character-wise. -/
def strLower (s : Str) : Str := s.map Char.toLower

/-- JavaScript string `<`: lexicographic comparison of code units. -/
def strLt : Str → Str → Bool
  | [], [] => false
  | [], _ :: _ => true
  | _ :: _, [] => false
  | c :: cs, d :: ds => if c < d then true else if d < c then false else strLt cs ds

/-- Role enum of `user.server.ts`: a string-valued enum
`BUDDY = "0"`, `HR = "1"`, `PRESIDENT = "2"`, `ADMIN = "3"`. -/
inductive Role where
  | BUDDY
  | HR
  | PRESIDENT
  | ADMIN
deriving DecidableEq, Repr

/-- The string value carried by each member of the `Role` enum. -/
def Role.val : Role → Str
  | .BUDDY => str "0"
  | .HR => str "1"
  | .PRESIDENT => str "2"
  | .ADMIN => str "3"

/-- JavaScript `>` applied to two role values (string comparison of the
enum's values, as in `loggedInUser.role > userToDelete.role`). -/
def roleGt (a b : Role) : Bool := strLt b.val a.val

/-- The `User` interface of `user.server.ts`. -/
structure User where
  id : Str
  email : Str
  firstName : Str
  lastName : Str
  faculty : Str
  role : Role
  agreementStartDate : Str
  agreementEndDate : Str
deriving DecidableEq, Repr

/-- A record of the `passwords` table (`Password` plus its `userId` key). -/
structure PasswordRecord where
  userId : Str
  password : Str
deriving DecidableEq, Repr

/-- The two tables touched by `user.server.ts`. -/
structure Db where
  users : List User
  passwords : List PasswordRecord
deriving Repr

/-- The fields of `Omit<User, "id">` (also the `userProps` of `createUser`
after the password is split off). -/
structure UserFields where
  email : Str
  firstName : Str
  lastName : Str
  faculty : Str
  role : Role
  agreementStartDate : Str
  agreementEndDate : Str
deriving DecidableEq, Repr

/-- Assemble a `User` record from an id, an email and the remaining fields,
as the object literals of `createUser` and `updateUser` do. -/
def mkUser (id email : Str) (f : UserFields) : User :=
  { id := id, email := email, firstName := f.firstName, lastName := f.lastName,
    faculty := f.faculty, role := f.role,
    agreementStartDate := f.agreementStartDate,
    agreementEndDate := f.agreementEndDate }

/-- Source: `email2UserId` in `user.server.ts` — no case normalization here. -/
def email2UserId (email : Str) : Str := str "User#" ++ email

/-- DynamoDB `put` on the `users` table: replace the item with the same key. -/
def putUser (users : List User) (u : User) : List User :=
  u :: users.filter (fun v => v.id != u.id)

/-- DynamoDB `put` on the `passwords` table. -/
def putPassword (ps : List PasswordRecord) (p : PasswordRecord) : List PasswordRecord :=
  p :: ps.filter (fun q => q.userId != p.userId)

/-- Source: `getUserById` — key query on `id`, first item or absence. -/
def getUserById (users : List User) (id : Str) : Option User :=
  (users.filter (fun u => u.id == id)).head?

/-- Source: `getUserByEmail` — derives the key with `email2UserId` and looks
it up; note that the email is used as given, without lowercasing. -/
def getUserByEmail (users : List User) (email : Str) : Option User :=
  getUserById users (email2UserId email)

/-- Source: `getUserPasswordByEmail` — key query on the `passwords` table. -/
def getUserPasswordByEmail (passwords : List PasswordRecord) (email : Str) :
    Option PasswordRecord :=
  (passwords.filter (fun p => p.userId == email2UserId email)).head?

/-- Source: `createUser` — lowercases the email, derives the key, hashes the
password (the hash function is a parameter abstracting `bcrypt.hash`), puts
the password and user records, and reads the user back. -/
def createUser (hash : Str → Str) (db : Db) (f : UserFields) (password : Str) :
    Db × Option User :=
  let lowerEmail := strLower f.email
  let userId := email2UserId lowerEmail
  let hashedPassword := hash password
  let db' : Db :=
    { users := putUser db.users (mkUser userId lowerEmail f),
      passwords := putPassword db.passwords ⟨userId, hashedPassword⟩ }
  (db', getUserById db'.users userId)

/-- Source: `isEmailUnique` in `user.server.ts` — true when `getUserByEmail`
finds nothing (suffix added to the name to distinguish it from the function
of the same name in `mentee.server.ts`). -/
def isEmailUniqueUser (users : List User) (email : Str) : Bool :=
  (getUserByEmail users email).isNone

/-- Source: `updateUser` — whole-record put; the id is derived from the
email as given (no lowercasing in this path). -/
def updateUser (db : Db) (f : UserFields) : Db :=
  { db with users := putUser db.users (mkUser (email2UserId f.email) f.email f) }

/-- Source: `verifyLogin` — lowercases the email, looks up the password
record, and compares via `bcrypt.compare` (a function parameter here);
returns the user on success and absence on either kind of failure. -/
def verifyLogin (compare : Str → Str → Bool) (db : Db) (email password : Str) :
    Option User :=
  let maybeEmailInDb := strLower email
  match getUserPasswordByEmail db.passwords maybeEmailInDb with
  | none => none
  | some userPassword =>
    if compare password userPassword.password then
      getUserByEmail db.users maybeEmailInDb
    else none

/-- Source: `getBuddyById` — the lookup of `getUserById` followed by the
active-contract filter `new Date(buddy.agreementEndDate) > new Date()`;
`parse` abstracts date parsing (`none` = invalid date, which compares
false) and `now` is the current time. -/
def getBuddyById (parse : Str → Option Int) (now : Int)
    (users : List User) (id : Str) : Option User :=
  match getUserById users id with
  | none => none
  | some buddy =>
    let isBuddyActive :=
      match parse buddy.agreementEndDate with
      | some t => decide (now < t)
      | none => false
    if isBuddyActive then some buddy else none

/-- The `{ canDelete, reason }` result of `canUserDeleteUser`. -/
structure DeleteDecision where
  canDelete : Bool
  reason : Str
deriving DecidableEq, Repr

/-- Source: `canUserDeleteUser` — ordered rule cascade.  The two store
counts it reads (`getMenteeCount { buddyId: userToDelete.id }` and
`getUserAssetCount(userToDelete.id)`) are passed in as `menteeCount` and
`assetCount`, since the rule logic only compares them with zero. -/
def canUserDeleteUser (loggedInUser userToDelete : User)
    (menteeCount assetCount : Nat) : DeleteDecision :=
  let isNotLoggedInUser := loggedInUser.id != userToDelete.id
  if !isNotLoggedInUser then
    ⟨false, str "You can not delete yourself"⟩
  else
    let isNotAdmin := userToDelete.role != Role.ADMIN
    if !isNotAdmin then
      ⟨false, str "You can not delete an admin"⟩
    else
      let isHigher := roleGt loggedInUser.role userToDelete.role
      if !isHigher then
        ⟨false, str "You can only delete users with a lower role than you"⟩
      else
        let hasMentees := menteeCount > 0
        if hasMentees then
          ⟨false, str "You can not delete a user with active mentees"⟩
        else
          let hasAssets := assetCount > 0
          if hasAssets then
            ⟨false, str "You can not delete a user who has assets"⟩
          else
            ⟨true, str ""⟩

/-- The mentee record of `mentee.server.ts` (the `Mentee` type: `User` minus
`id`, `role`, `faculty`, plus the mentee-specific fields; all string-valued,
with the status one of the eight `MENTEE_STATUS` strings). -/
structure MenteeRecord where
  id : Str
  buddyId : Str
  countryCode : Str
  homeUniversity : Str
  hostFaculty : Str
  email : Str
  firstName : Str
  lastName : Str
  gender : Str
  degree : Str
  agreementStartDate : Str
  agreementEndDate : Str
  status : Str
deriving DecidableEq, Repr

/-- The `Note` type of `mentee.server.ts`. -/
structure NoteRecord where
  id : Str
  content : Str
  authorId : Str
  createdAt : Str
  updatedAt : Option Str
deriving DecidableEq, Repr

/-- Payload of an item of the single-table `mentees` collection: either a
mentee's own record or one of its notes. -/
inductive ItemPayload where
  | mentee (m : MenteeRecord)
  | note (n : NoteRecord)
deriving DecidableEq, Repr

/-- The `id` field carried by either payload (both record shapes have one;
`deleteMentee` reads it off the raw query results). -/
def ItemPayload.itemId : ItemPayload → Str
  | .mentee m => m.id
  | .note n => n.id

/-- View a payload as a mentee record, as the `Mentee`-typed reads do. -/
def ItemPayload.asMentee : ItemPayload → Option MenteeRecord
  | .mentee m => some m
  | .note _ => none

/-- The `email` attribute of an item, as seen by the `menteeByEmail`
secondary index (note records carry no email attribute). -/
def ItemPayload.emailAttr : ItemPayload → Option Str
  | .mentee m => some m.email
  | .note _ => none

/-- An item of the `mentees` collection: composite key plus payload. -/
structure Item where
  pk : Str
  sk : Str
  payload : ItemPayload
deriving DecidableEq, Repr

/-- Source: `id2pk` — `"Mentee#" + id`. -/
def id2pk (id : Str) : Str := str "Mentee#" ++ id

/-- Source: `id2NoteSk` — `"Note#" + id`. -/
def id2NoteSk (id : Str) : Str := str "Note#" ++ id

/-- DynamoDB `put` on the `mentees` collection: replace the item with the
same `(pk, sk)` key. -/
def putItem (db : List Item) (it : Item) : List Item :=
  it :: db.filter (fun x => !(x.pk == it.pk && x.sk == it.sk))

/-- DynamoDB `delete` on the `mentees` collection: remove the item with the
given `(pk, sk)` key. -/
def deleteItem (db : List Item) (pk sk : Str) : List Item :=
  db.filter (fun x => !(x.pk == pk && x.sk == sk))

/-- Source: `getMenteeById` — key query `pk = sk = "Mentee#" + id`, first
item or absence, read as a mentee record. -/
def getMenteeById (db : List Item) (id : Str) : Option MenteeRecord :=
  ((db.filter (fun it => it.pk == id2pk id && it.sk == id2pk id)).head?).bind
    (fun it => it.payload.asMentee)

/-- The fields of `Omit<Mentee, "id" | "status">`, the input of
`createMentee`. -/
structure NewMenteeInput where
  buddyId : Str
  countryCode : Str
  homeUniversity : Str
  hostFaculty : Str
  email : Str
  firstName : Str
  lastName : Str
  gender : Str
  degree : Str
  agreementStartDate : Str
  agreementEndDate : Str
deriving DecidableEq, Repr

/-- The mentee record built by the object literal inside `createMentee`:
status forced to `"assigned"`, email lowercased (the email override comes
after the spread, so it always wins). -/
def mkMenteeRecord (id : Str) (m : NewMenteeInput) : MenteeRecord :=
  { id := id, status := str "assigned",
    buddyId := m.buddyId, countryCode := m.countryCode,
    homeUniversity := m.homeUniversity, hostFaculty := m.hostFaculty,
    email := strLower m.email, firstName := m.firstName,
    lastName := m.lastName, gender := m.gender, degree := m.degree,
    agreementStartDate := m.agreementStartDate,
    agreementEndDate := m.agreementEndDate }

/-- Source: `createMentee` — the freshly generated `cuid()` is the `id`
parameter; puts the record under `pk = sk = "Mentee#" + id` and reads it
back (the source's `invariant` aborts when the read-back is absent, so the
read-back is returned as an `Option`). -/
def createMentee (db : List Item) (id : Str) (newMentee : NewMenteeInput) :
    List Item × Option MenteeRecord :=
  let key := id2pk id
  let db' := putItem db ⟨key, key, .mentee (mkMenteeRecord id newMentee)⟩
  (db', getMenteeById db' id)

/-- Source: `updateMenteeStatus` — a DynamoDB `update` that sets only the
`status` attribute of the item at `pk = sk = "Mentee#" + menteeId`.  The
typed model applies the update to the matching items; the theorem about it
assumes the mentee record exists, which is also the only case in which the
raw `update` does not upsert a fresh partial item.  The item at the key
gets its `status` attribute set, every other item is left alone (note
payloads carry no status attribute; no note ever sits at a `pk = sk` key,
since `createNote` always writes `sk = "Note#" + id`). -/
def updateStatusItem (key newStatus : Str) (it : Item) : Item :=
  if it.pk == key && it.sk == key then
    match it.payload with
    | .mentee m => { it with payload := .mentee { m with status := newStatus } }
    | .note _ => it
  else it

/-- Source: `updateMenteeStatus` — applies the status update to the store. -/
def updateMenteeStatus (db : List Item) (menteeId newStatus : Str) : List Item :=
  let key := id2pk menteeId
  db.map (updateStatusItem key newStatus)

/-- Source: `getNotesOfMentee` — range query `pk = "Mentee#" + id` and
`begins_with(sk, "Note#")`.  Returned as raw items: at runtime the source
returns the full stored objects (their TypeScript type is `Note[]`), and
`deleteMentee` reads `note.id` off them. -/
def getNotesOfMentee (db : List Item) (menteeId : Str) : List Item :=
  db.filter (fun it => it.pk == id2pk menteeId && (str "Note#").isPrefixOf it.sk)

/-- Source: `deleteMentee` — reads the notes, then deletes the mentee's own
record and, for each note, the item at `(pk, "Note#" + note.id)`; the
`Promise.all` of independent deletes has the net effect of performing them
one after another. -/
def deleteMentee (db : List Item) (menteeId : Str) : List Item :=
  let key := id2pk menteeId
  let notes := getNotesOfMentee db menteeId
  (notes.map (fun note => id2NoteSk note.payload.itemId)).foldl
    (fun acc sk => deleteItem acc key sk) (deleteItem db key key)

/-- Source: `isEmailUnique` in `mentee.server.ts` — count query on the
`menteeByEmail` secondary index (which indexes the items carrying an
`email` attribute), true iff the count is zero; the email is matched
exactly as given. -/
def isEmailUniqueMentee (db : List Item) (email : Str) : Bool :=
  (db.filter (fun it => it.payload.emailAttr == some email)).length == 0

/-- Source: `createNote` — puts a note item at
`(pk, sk) = ("Mentee#" + menteeId, "Note#" + id)`; the generated `cuid()`
and the `createdAt` timestamp are parameters. -/
def createNote (db : List Item) (id createdAt : Str)
    (menteeId content authorId : Str) : List Item :=
  putItem db ⟨id2pk menteeId, id2NoteSk id, .note ⟨id, content, authorId, createdAt, none⟩⟩

/-- Source: `canUserMutateNote` — authored it, or any role other than BUDDY. -/
def canUserMutateNote (user : User) (note : NoteRecord) : Bool :=
  user.id == note.authorId || user.role != Role.BUDDY

/-- Source: `canUserMutateMentee` — any role other than BUDDY. -/
def canUserMutateMentee (user : User) : Bool :=
  user.role != Role.BUDDY

/-- A sample HR user, used to instantiate theorems on concrete inputs. -/
def sampleHR : User :=
  { id := str "User#hr@x.co", email := str "hr@x.co",
    firstName := str "Hanna", lastName := str "Reyes",
    faculty := str "Science", role := Role.HR,
    agreementStartDate := str "2020-01-01",
    agreementEndDate := str "2030-01-01" }

/-- A sample ADMIN user. -/
def sampleAdmin : User :=
  { id := str "User#admin@x.co", email := str "admin@x.co",
    firstName := str "Ada", lastName := str "Moor",
    faculty := str "Arts", role := Role.ADMIN,
    agreementStartDate := str "2020-01-01",
    agreementEndDate := str "2030-01-01" }

/-- A sample BUDDY user. -/
def sampleBuddy : User :=
  { id := str "User#buddy@x.co", email := str "buddy@x.co",
    firstName := str "Bud", lastName := str "Dee",
    faculty := str "Math", role := Role.BUDDY,
    agreementStartDate := str "2020-01-01",
    agreementEndDate := str "2030-01-01" }

/-- A sample note authored by the sample BUDDY user. -/
def sampleNoteByBuddy : NoteRecord :=
  { id := str "n1", content := str "hello", authorId := str "User#buddy@x.co",
    createdAt := str "2024-01-01T00:00:00Z", updatedAt := none }

/-- A sample note authored by the sample HR user. -/
def sampleNoteByHR : NoteRecord :=
  { id := str "n2", content := str "hi", authorId := str "User#hr@x.co",
    createdAt := str "2024-01-02T00:00:00Z", updatedAt := none }

/-- A sample `createMentee` input whose email contains upper-case letters. -/
def sampleMenteeInput : NewMenteeInput :=
  { buddyId := str "User#buddy@x.co", countryCode := str "DE",
    homeUniversity := str "Home U", hostFaculty := str "Science",
    email := str "Mia@Host.co", firstName := str "Mia", lastName := str "K",
    gender := str "female", degree := str "master",
    agreementStartDate := str "2024-01-01",
    agreementEndDate := str "2024-12-31" }

/-- Sample `Omit<User, "id">` fields whose email contains an upper-case
letter. -/
def sampleFieldsUpper : UserFields :=
  { email := str "A@b.c", firstName := str "Al", lastName := str "Up",
    faculty := str "Law", role := Role.PRESIDENT,
    agreementStartDate := str "2020-01-01",
    agreementEndDate := str "2030-01-01" }

/-- A sample stored user whose email (and key) is already lowercased, the
form in which `createUser` stores users. -/
def sampleLowerUser : User :=
  { id := str "User#a@b.c", email := str "a@b.c", firstName := str "Al",
    lastName := str "Lo", faculty := str "Law", role := Role.PRESIDENT,
    agreementStartDate := str "2020-01-01",
    agreementEndDate := str "2030-01-01" }

/-- Helper: among the four enum values, being strictly above BUDDY in the
string order of the role values is the same as not being BUDDY. -/
theorem roleGt_buddy (r : Role) : roleGt r Role.BUDDY = (r != Role.BUDDY) := by
  cases r <;> rfl

/-- Helper: `canUserDeleteUser` equals its rule cascade written with
propositional conditions. -/
theorem canUserDeleteUser_cascade (a t : User) (mc ac : Nat) :
    canUserDeleteUser a t mc ac =
      (if a.id = t.id then ⟨false, str "You can not delete yourself"⟩
       else if t.role = Role.ADMIN then ⟨false, str "You can not delete an admin"⟩
       else if roleGt a.role t.role = false then
         ⟨false, str "You can only delete users with a lower role than you"⟩
       else if 0 < mc then ⟨false, str "You can not delete a user with active mentees"⟩
       else if 0 < ac then ⟨false, str "You can not delete a user who has assets"⟩
       else ⟨true, str ""⟩) := by
  unfold canUserDeleteUser
  by_cases h1 : a.id = t.id <;> simp [h1]

/-- C1, counterexample: an HR actor attempting to delete an ADMIN target
gets the reason "You can not delete an admin" (rule 2 fires before the
role-order rule), not the role-order reason the claim states. -/
theorem canUserDeleteUser_hr_admin_cex :
    canUserDeleteUser sampleHR sampleAdmin 0 0 =
      ⟨false, str "You can not delete an admin"⟩ ∧
    canUserDeleteUser sampleHR sampleAdmin 0 0 ≠
      ⟨false, str "You can only delete users with a lower role than you"⟩ := by
  decide

/-- C1 (amended): `canUserDeleteUser` evaluates its five rules in the fixed
order (1) actor id equals target id, (2) target holds ADMIN, (3) actor's
role not strictly greater, (4) target has mentees, (5) target has assets;
it returns the reason of the first violated rule, and `canDelete = true`
with empty reason iff all five pass.  Self-deletion always yields "You can
not delete yourself"; an HR actor against a distinct ADMIN target yields
"You can not delete an admin" (rule 2 fires before the role-order rule);
an ADMIN actor against a distinct BUDDY target with zero mentees and zero
assets yields `canDelete = true`. -/
theorem canUserDeleteUser_ordered_rules (a t : User) (mc ac : Nat) :
    (canUserDeleteUser a t mc ac =
      if a.id = t.id then ⟨false, str "You can not delete yourself"⟩
      else if t.role = Role.ADMIN then ⟨false, str "You can not delete an admin"⟩
      else if roleGt a.role t.role = false then
        ⟨false, str "You can only delete users with a lower role than you"⟩
      else if 0 < mc then ⟨false, str "You can not delete a user with active mentees"⟩
      else if 0 < ac then ⟨false, str "You can not delete a user who has assets"⟩
      else ⟨true, str ""⟩) ∧
    ((canUserDeleteUser a t mc ac).canDelete = true ↔
      a.id ≠ t.id ∧ t.role ≠ Role.ADMIN ∧ roleGt a.role t.role = true ∧
        mc = 0 ∧ ac = 0) ∧
    ((canUserDeleteUser a t mc ac).canDelete = true →
      (canUserDeleteUser a t mc ac).reason = str "") ∧
    (canUserDeleteUser a a mc ac = ⟨false, str "You can not delete yourself"⟩) ∧
    (a.role = Role.HR → t.role = Role.ADMIN → a.id ≠ t.id →
      canUserDeleteUser a t mc ac = ⟨false, str "You can not delete an admin"⟩) ∧
    (a.role = Role.ADMIN → t.role = Role.BUDDY → a.id ≠ t.id →
      canUserDeleteUser a t 0 0 = ⟨true, str ""⟩) := by
  have hc := canUserDeleteUser_cascade a t mc ac
  refine ⟨hc, ?_, ?_, ?_, ?_, ?_⟩
  · rw [hc]
    split_ifs with h1 h2 h3 h4 h5 <;> simp_all [Nat.pos_iff_ne_zero]
  · rw [hc]
    split_ifs <;> simp
  · have := canUserDeleteUser_cascade a a mc ac
    rw [this]; simp
  · intro hHR hADM hne
    rw [hc]; simp [hne, hADM]
  · intro hADM hBUD hne
    have hc0 := canUserDeleteUser_cascade a t 0 0
    rw [hc0]
    simp [hne, hADM, hBUD, roleGt]
    decide

/-- C1 witness: the amended theorem instantiated at the sample users. -/
theorem canUserDeleteUser_ordered_rules_witness :
    canUserDeleteUser sampleAdmin sampleBuddy 0 0 = ⟨true, str ""⟩ ∧
    canUserDeleteUser sampleHR sampleAdmin 3 4 =
      ⟨false, str "You can not delete an admin"⟩ := by
  refine ⟨?_, ?_⟩
  · exact (canUserDeleteUser_ordered_rules sampleAdmin sampleBuddy 0 0).2.2.2.2.2
      (by decide) (by decide) (by decide)
  · exact (canUserDeleteUser_ordered_rules sampleHR sampleAdmin 3 4).2.2.2.2.1
      (by decide) (by decide) (by decide)

/-- C8: `canUserMutateNote` returns true iff the user's id equals the
note's `authorId` or the user's role is strictly above BUDDY (in the string
order of the role values); a BUDDY author gets true, a BUDDY non-author
gets false, and every non-BUDDY role gets true regardless of authorship. -/
theorem canUserMutateNote_spec (u : User) (n : NoteRecord) :
    (canUserMutateNote u n = true ↔
      (u.id = n.authorId ∨ roleGt u.role Role.BUDDY = true)) ∧
    (u.role = Role.BUDDY → u.id = n.authorId → canUserMutateNote u n = true) ∧
    (u.role = Role.BUDDY → u.id ≠ n.authorId → canUserMutateNote u n = false) ∧
    (u.role ≠ Role.BUDDY → canUserMutateNote u n = true) := by
  have hrb := roleGt_buddy u.role
  refine ⟨?_, ?_, ?_, ?_⟩
  · rw [hrb]; simp [canUserMutateNote]
  · intro _ h2; simp [canUserMutateNote, h2]
  · intro h1 h2; simp [canUserMutateNote, h1, h2]
  · intro h1; simp [canUserMutateNote, h1]

/-- C8 witness: the theorem instantiated at the sample users and notes. -/
theorem canUserMutateNote_spec_witness :
    canUserMutateNote sampleBuddy sampleNoteByBuddy = true ∧
    canUserMutateNote sampleBuddy sampleNoteByHR = false ∧
    canUserMutateNote sampleHR sampleNoteByBuddy = true := by
  refine ⟨?_, ?_, ?_⟩
  · exact (canUserMutateNote_spec sampleBuddy sampleNoteByBuddy).2.1
      (by decide) (by decide)
  · exact (canUserMutateNote_spec sampleBuddy sampleNoteByHR).2.2.1
      (by decide) (by decide)
  · exact (canUserMutateNote_spec sampleHR sampleNoteByBuddy).2.2.2 (by decide)

/-- Helper: `Char.toLower` is idempotent. -/
theorem char_toLower_idem (c : Char) : c.toLower.toLower = c.toLower := by
  unfold Char.toLower
  by_cases h : 65 ≤ c.toNat ∧ c.toNat ≤ 90
  · rw [if_pos h]
    have hv : (c.toNat + 32).isValidChar := by
      left
      omega
    have ht : (Char.ofNat (c.toNat + 32)).toNat = c.toNat + 32 := by
      rw [Char.ofNat, dif_pos hv]
      simp [Char.ofNatAux, Char.toNat, UInt32.toNat, BitVec.toNat_ofNatLt]
    rw [if_neg]
    omega
  · rw [if_neg h, if_neg h]

/-- Helper: `strLower` is idempotent. -/
theorem strLower_idem (s : Str) : strLower (strLower s) = strLower s := by
  unfold strLower
  rw [List.map_map]
  exact List.map_congr_left (fun c _ => char_toLower_idem c)

/-- C2, counterexample: with a store holding the (lowercase-keyed) sample
user, looking up the mixed-case email "A@b.c" via `getUserByEmail` misses
the record, while `getUserById` at `"User#" + email.toLowerCase()` finds
it — `getUserByEmail` does not lowercase its argument. -/
theorem getUserByEmail_lowercase_cex :
    getUserByEmail [sampleLowerUser] (str "A@b.c") ≠
      getUserById [sampleLowerUser] (str "User#" ++ strLower (str "A@b.c")) := by
  decide

/-- C2 (amended): for every email and store state, `getUserByEmail(email)`
returns the same record as `getUserById("User#" + email)` — the email is
used exactly as given; the claimed identity with the lowercased key holds
exactly when the email is already in lowercase. -/
theorem getUserByEmail_no_lowercase (users : List User) (email : Str) :
    getUserByEmail users email = getUserById users (str "User#" ++ email) ∧
    (strLower email = email →
      getUserByEmail users email =
        getUserById users (str "User#" ++ strLower email)) := by
  refine ⟨rfl, ?_⟩
  intro h
  rw [h]
  rfl

/-- C2 witness: the amended theorem instantiated at a lowercase email. -/
theorem getUserByEmail_no_lowercase_witness :
    getUserByEmail [sampleLowerUser] (str "a@b.c") =
      getUserById [sampleLowerUser] (str "User#" ++ strLower (str "a@b.c")) :=
  (getUserByEmail_no_lowercase [sampleLowerUser] (str "a@b.c")).2 (by decide)

/-- C3, counterexample: `updateUser` with the email "A@b.c" writes a record
whose id is "User#A@b.c", not `"User#" + the lowercased email` — the
update path performs no lowercasing. -/
theorem updateUser_not_lowercased_cex :
    (updateUser ⟨[], []⟩ sampleFieldsUpper).users.head? =
      some (mkUser (str "User#A@b.c") (str "A@b.c") sampleFieldsUpper) ∧
    str "User#A@b.c" ≠ str "User#" ++ strLower (str "A@b.c") := by
  decide

/-- C3 (amended): the user record written by `createUser` always has
`id = "User#" + lowercased input email` and stores the lowercased email, so
its id is `"User#" +` the lowercased form of its own email field; the
record written by `updateUser` has `id = "User#" + email` with the email
taken as given, so it satisfies the lowercased-id invariant exactly when
the input email is already lowercase. -/
theorem user_id_invariant (hash : Str → Str) (db : Db) (f : UserFields)
    (pw : Str) :
    ((createUser hash db f pw).1.users.head? =
      some (mkUser (str "User#" ++ strLower f.email) (strLower f.email) f)) ∧
    (∀ u, (createUser hash db f pw).1.users.head? = some u →
      u.id = str "User#" ++ strLower u.email) ∧
    ((updateUser db f).users.head? =
      some (mkUser (str "User#" ++ f.email) f.email f)) ∧
    (∀ u, (updateUser db f).users.head? = some u →
      strLower f.email = f.email → u.id = str "User#" ++ strLower u.email) := by
  refine ⟨rfl, ?_, rfl, ?_⟩
  · intro u hu
    obtain rfl := Option.some.inj hu.symm
    simp [mkUser, email2UserId, strLower_idem]
  · intro u hu hlow
    obtain rfl := Option.some.inj hu.symm
    simp [mkUser, email2UserId, hlow]

/-- C3 witness: the amended theorem instantiated at concrete inputs. -/
theorem user_id_invariant_witness :
    (createUser (fun p => p) ⟨[], []⟩ sampleFieldsUpper (str "pw")).1.users.head? =
      some (mkUser (str "User#" ++ strLower (str "A@b.c"))
        (strLower (str "A@b.c")) sampleFieldsUpper) ∧
    (mkUser (str "User#" ++ strLower (str "A@b.c")) (strLower (str "A@b.c"))
        sampleFieldsUpper).id =
      str "User#" ++ strLower (mkUser (str "User#" ++ strLower (str "A@b.c"))
        (strLower (str "A@b.c")) sampleFieldsUpper).email := by
  have h := user_id_invariant (fun p => p) ⟨[], []⟩ sampleFieldsUpper (str "pw")
  exact ⟨h.1, h.2.1 _ h.1⟩

/-- C4: for every input record, `createMentee` persists and returns a
mentee whose status is "assigned" (the input type carries no status field
to override it), whose email is the lowercased input email, and whose item
uses the generated id as both partition and sort key,
`"Mentee#" + id`. -/
theorem createMentee_spec (db : List Item) (id : Str) (inp : NewMenteeInput) :
    (createMentee db id inp).2 = some (mkMenteeRecord id inp) ∧
    (mkMenteeRecord id inp).status = str "assigned" ∧
    (mkMenteeRecord id inp).email = strLower inp.email ∧
    (createMentee db id inp).1.head? =
      some ⟨id2pk id, id2pk id, .mentee (mkMenteeRecord id inp)⟩ ∧
    id2pk id = str "Mentee#" ++ id := by
  refine ⟨?_, rfl, rfl, rfl, rfl⟩
  simp [createMentee, putItem, getMenteeById, ItemPayload.asMentee]

/-- Helper: `getBuddyById` rewritten with the boolean scaffolding of the
source reduced away. -/
theorem getBuddyById_eq (parse : Str → Option Int) (now : Int)
    (users : List User) (id : Str) :
    getBuddyById parse now users id =
      match getUserById users id with
      | none => none
      | some buddy =>
        match parse buddy.agreementEndDate with
        | some t => if now < t then some buddy else none
        | none => none := by
  unfold getBuddyById
  cases getUserById users id with
  | none => rfl
  | some b =>
    show (let isBuddyActive :=
            match parse b.agreementEndDate with
            | some t => decide (now < t)
            | none => false
          if isBuddyActive = true then some b else none) =
        match parse b.agreementEndDate with
        | some t => if now < t then some b else none
        | none => none
    cases parse b.agreementEndDate with
    | none => rfl
    | some t =>
      show (if decide (now < t) = true then some b else none) =
          if now < t then some b else none
      by_cases h : now < t <;> simp [h]

/-- C10: `getBuddyById` returns the user exactly when the user exists and
its `agreementEndDate` parses to a time strictly later than now; for a
missing user, an unparsable date, or an agreement ending at or before now
it returns absence, even where `getUserById` still returns the record. -/
theorem getBuddyById_spec (parse : Str → Option Int) (now : Int)
    (users : List User) (id : Str) :
    (∀ u, getBuddyById parse now users id = some u ↔
      (getUserById users id = some u ∧
        ∃ t, parse u.agreementEndDate = some t ∧ now < t)) ∧
    (∀ u, getUserById users id = some u →
      (∀ t, parse u.agreementEndDate = some t → t ≤ now) →
      getBuddyById parse now users id = none ∧
        getUserById users id = some u) := by
  have he := getBuddyById_eq parse now users id
  constructor
  · intro u
    rw [he]
    cases hg : getUserById users id with
    | none => simp
    | some b =>
      show (match parse b.agreementEndDate with
            | some t => if now < t then some b else none
            | none => none) = some u ↔
          some b = some u ∧ ∃ t, parse u.agreementEndDate = some t ∧ now < t
      cases hp : parse b.agreementEndDate with
      | none =>
        constructor
        · intro h; exact absurd h (by simp)
        · rintro ⟨hbu, t, hpt, hlt⟩
          obtain rfl := Option.some.inj hbu
          rw [hp] at hpt
          exact absurd hpt (by simp)
      | some t =>
        show (if now < t then some b else none) = some u ↔
            some b = some u ∧ ∃ t, parse u.agreementEndDate = some t ∧ now < t
        by_cases hlt : now < t
        · rw [if_pos hlt]
          constructor
          · intro h
            obtain rfl := Option.some.inj h
            exact ⟨rfl, t, hp, hlt⟩
          · exact fun h => h.1
        · rw [if_neg hlt]
          constructor
          · intro h; exact absurd h (by simp)
          · rintro ⟨hbu, t2, hpt, hlt2⟩
            obtain rfl := Option.some.inj hbu
            rw [hp] at hpt
            obtain rfl := Option.some.inj hpt
            exact absurd hlt2 hlt
  · intro u hg hle
    rw [he, hg]
    refine ⟨?_, rfl⟩
    show (match parse u.agreementEndDate with
          | some t => if now < t then some u else none
          | none => none) = none
    cases hp : parse u.agreementEndDate with
    | none => rfl
    | some t =>
      show (if now < t then some u else none) = none
      rw [if_neg (Int.not_lt.mpr (hle t hp))]

/-- C5: `verifyLogin` lowercases the email before lookup and returns the
user exactly when a password record exists for the lowercased email, the
plaintext verifies against the stored hash, and the user record is there to
read back; when the lookup finds no record, or the record exists but the
plaintext does not verify, the result is the same absence value, so the
two failure causes are indistinguishable. -/
theorem verifyLogin_spec (compare : Str → Str → Bool) (db : Db)
    (email pw : Str) :
    (∀ u, verifyLogin compare db email pw = some u ↔
      ∃ rec, getUserPasswordByEmail db.passwords (strLower email) = some rec ∧
        compare pw rec.password = true ∧
        getUserByEmail db.users (strLower email) = some u) ∧
    (∀ email2 pw2,
      getUserPasswordByEmail db.passwords (strLower email) = none →
      (∀ rec, getUserPasswordByEmail db.passwords (strLower email2) = some rec →
        compare pw2 rec.password = false) →
      verifyLogin compare db email pw = none ∧
        verifyLogin compare db email pw = verifyLogin compare db email2 pw2) := by
  have he : ∀ e p, verifyLogin compare db e p =
      match getUserPasswordByEmail db.passwords (strLower e) with
      | none => none
      | some userPassword =>
        if compare p userPassword.password = true then
          getUserByEmail db.users (strLower e)
        else none := fun _ _ => rfl
  constructor
  · intro u
    rw [he]
    cases hl : getUserPasswordByEmail db.passwords (strLower email) with
    | none => simp
    | some rec =>
      show (if compare pw rec.password = true then
            getUserByEmail db.users (strLower email)
          else none) = some u ↔
          ∃ r, some rec = some r ∧ compare pw r.password = true ∧
            getUserByEmail db.users (strLower email) = some u
      by_cases hc : compare pw rec.password = true
      · rw [if_pos hc]
        simp [hc]
      · rw [if_neg hc]
        simp [hc]
  · intro email2 pw2 h1 h2
    have hv1 : verifyLogin compare db email pw = none := by
      rw [he, h1]
    have hv2 : verifyLogin compare db email2 pw2 = none := by
      rw [he]
      cases hl : getUserPasswordByEmail db.passwords (strLower email2) with
      | none => rfl
      | some rec =>
        show (if compare pw2 rec.password = true then
              getUserByEmail db.users (strLower email2)
            else none) = none
        simp [h2 rec hl]
    exact ⟨hv1, hv1.trans hv2.symm⟩

/-- C5 witness: with a store holding a password record only for
"a@b.c" and a comparison that rejects everything, an unknown email and a
known email with a wrong credential produce the same absence value. -/
theorem verifyLogin_spec_witness :
    verifyLogin (fun _ _ => false)
        ⟨[sampleLowerUser], [⟨str "User#a@b.c", str "h1"⟩]⟩
        (str "x@y.z") (str "p1") = none ∧
    verifyLogin (fun _ _ => false)
        ⟨[sampleLowerUser], [⟨str "User#a@b.c", str "h1"⟩]⟩
        (str "x@y.z") (str "p1") =
      verifyLogin (fun _ _ => false)
        ⟨[sampleLowerUser], [⟨str "User#a@b.c", str "h1"⟩]⟩
        (str "A@b.c") (str "p2") :=
  (verifyLogin_spec (fun _ _ => false)
    ⟨[sampleLowerUser], [⟨str "User#a@b.c", str "h1"⟩]⟩
    (str "x@y.z") (str "p1")).2 (str "A@b.c") (str "p2")
    (by decide) (fun _ _ => rfl)

/-- C7, counterexample: immediately after a mentee with email "Mia@Host.co"
is created (which stores the lowercased email), `isEmailUnique` called with
the original casing still returns true — the match is case-sensitive, not
case-normalized; only the lowercased casing returns false. -/
theorem isEmailUnique_case_cex :
    isEmailUniqueMentee (createMentee [] (str "m1") sampleMenteeInput).1
      (str "Mia@Host.co") = true ∧
    isEmailUniqueMentee (createMentee [] (str "m1") sampleMenteeInput).1
      (strLower (str "Mia@Host.co")) = false := by
  decide

/-- C7 (amended): both `isEmailUnique` functions return true iff zero
stored records match the given email exactly (the mentee version counts
items whose email attribute equals the query, the user version finds no
user under the derived key); immediately after a mentee or user is created
the lowercased form of the email is taken, while other casings of the
same email can still report unique. -/
theorem isEmailUnique_exact :
    (∀ (db : List Item) (email : Str),
      isEmailUniqueMentee db email = true ↔
        ∀ it ∈ db, it.payload.emailAttr ≠ some email) ∧
    (∀ (users : List User) (email : Str),
      isEmailUniqueUser users email = true ↔
        ∀ u ∈ users, u.id ≠ email2UserId email) ∧
    (∀ (db : List Item) (id : Str) (inp : NewMenteeInput),
      isEmailUniqueMentee (createMentee db id inp).1 (strLower inp.email) = false) ∧
    (∀ (hash : Str → Str) (db : Db) (f : UserFields) (pw : Str),
      isEmailUniqueUser (createUser hash db f pw).1.users (strLower f.email) = false) := by
  refine ⟨?_, ?_, ?_, ?_⟩
  · intro db email
    simp [isEmailUniqueMentee, List.length_eq_zero, List.filter_eq_nil_iff]
  · intro users email
    simp [isEmailUniqueUser, getUserByEmail, getUserById,
      Option.isNone_iff_eq_none, List.head?_eq_none_iff, List.filter_eq_nil_iff]
  · intro db id inp
    simp [isEmailUniqueMentee, createMentee, putItem, mkMenteeRecord,
      ItemPayload.emailAttr]
  · intro hash db f pw
    simp [isEmailUniqueUser, createUser, putUser, getUserByEmail, getUserById,
      mkUser, Option.isNone_iff_eq_none]

/-- C7 witness: the amended theorem instantiated at concrete stores. -/
theorem isEmailUnique_exact_witness :
    isEmailUniqueMentee (createMentee [] (str "m1") sampleMenteeInput).1
      (strLower sampleMenteeInput.email) = false ∧
    isEmailUniqueMentee [] (str "x@y.z") = true := by
  refine ⟨isEmailUnique_exact.2.2.1 [] (str "m1") sampleMenteeInput, ?_⟩
  exact (isEmailUnique_exact.1 [] (str "x@y.z")).mpr (by simp)

/-- Helper: the status update never changes an item's keys. -/
theorem updateStatusItem_keys (key s : Str) (it : Item) :
    (updateStatusItem key s it).pk = it.pk ∧ (updateStatusItem key s it).sk = it.sk := by
  unfold updateStatusItem
  by_cases hp : (it.pk == key && it.sk == key) = true
  · rw [if_pos hp]
    cases it.payload <;> exact ⟨rfl, rfl⟩
  · rw [if_neg hp]
    exact ⟨rfl, rfl⟩

/-- Helper: the key test is invariant under the status update. -/
theorem updateStatusItem_keytest (key s : Str) (it : Item) :
    ((updateStatusItem key s it).pk == key && (updateStatusItem key s it).sk == key)
      = (it.pk == key && it.sk == key) := by
  rw [(updateStatusItem_keys key s it).1, (updateStatusItem_keys key s it).2]

/-- C9: when the mentee's own record exists, `updateMenteeStatus` leaves
every record at a different key untouched and replaces the record at
`pk = sk = "Mentee#" + menteeId` with the same record except that its
status field equals the new status. -/
theorem updateMenteeStatus_spec (db : List Item) (menteeId s : Str)
    (m : MenteeRecord) (h : getMenteeById db menteeId = some m) :
    getMenteeById (updateMenteeStatus db menteeId s) menteeId =
      some { m with status := s } ∧
    (updateMenteeStatus db menteeId s).filter
        (fun it => !(it.pk == id2pk menteeId && it.sk == id2pk menteeId)) =
      db.filter (fun it => !(it.pk == id2pk menteeId && it.sk == id2pk menteeId)) := by
  constructor
  · show ((updateMenteeStatus db menteeId s).filter
        (fun it => it.pk == id2pk menteeId && it.sk == id2pk menteeId)).head?.bind
        (fun it => it.payload.asMentee) = some { m with status := s }
    have hfil : (updateMenteeStatus db menteeId s).filter
          (fun it => it.pk == id2pk menteeId && it.sk == id2pk menteeId) =
        (db.filter (fun it => it.pk == id2pk menteeId && it.sk == id2pk menteeId)).map
          (updateStatusItem (id2pk menteeId) s) := by
      show (db.map (updateStatusItem (id2pk menteeId) s)).filter _ = _
      rw [List.filter_map]
      congr 1
      apply List.filter_congr
      intro it _
      exact updateStatusItem_keytest (id2pk menteeId) s it
    rw [hfil]
    cases hl : db.filter
        (fun it => it.pk == id2pk menteeId && it.sk == id2pk menteeId) with
    | nil =>
      rw [getMenteeById, hl] at h
      simp at h
    | cons it0 rest =>
      rw [getMenteeById, hl] at h
      simp only [List.head?_cons, Option.some_bind] at h
      have hp0 : (it0.pk == id2pk menteeId && it0.sk == id2pk menteeId) = true :=
        List.of_mem_filter (p := fun it =>
          it.pk == id2pk menteeId && it.sk == id2pk menteeId)
          (l := db) (by rw [hl]; exact List.mem_cons_self _ _)
      simp only [List.map_cons, List.head?_cons, Option.some_bind]
      unfold updateStatusItem
      rw [if_pos hp0]
      cases hpay : it0.payload with
      | note n =>
        rw [hpay] at h
        simp [ItemPayload.asMentee] at h
      | mentee mrec =>
        rw [hpay] at h
        simp only [ItemPayload.asMentee, Option.some.injEq] at h
        subst h
        rfl
  · show (db.map (updateStatusItem (id2pk menteeId) s)).filter _ = _
    rw [List.filter_map]
    have hcg : db.filter ((fun it : Item =>
          !(it.pk == id2pk menteeId && it.sk == id2pk menteeId)) ∘
          updateStatusItem (id2pk menteeId) s) =
        db.filter (fun it =>
          !(it.pk == id2pk menteeId && it.sk == id2pk menteeId)) := by
      apply List.filter_congr
      intro it _
      simp only [Function.comp_apply]
      rw [updateStatusItem_keytest]
    rw [hcg]
    have hid : ∀ it ∈ db.filter (fun it : Item =>
          !(it.pk == id2pk menteeId && it.sk == id2pk menteeId)),
        updateStatusItem (id2pk menteeId) s it = it := by
      intro it hit
      have hq := List.of_mem_filter hit
      simp only [Bool.not_eq_true'] at hq
      unfold updateStatusItem
      rw [if_neg (by simp [hq])]
    calc (db.filter (fun it : Item =>
            !(it.pk == id2pk menteeId && it.sk == id2pk menteeId))).map
          (updateStatusItem (id2pk menteeId) s)
        = (db.filter (fun it : Item =>
            !(it.pk == id2pk menteeId && it.sk == id2pk menteeId))).map id :=
          List.map_congr_left hid
      _ = _ := List.map_id _

/-- C9 witness: the theorem instantiated at a store holding one freshly
created mentee. -/
theorem updateMenteeStatus_spec_witness :
    getMenteeById (updateMenteeStatus
        (createMentee [] (str "m1") sampleMenteeInput).1 (str "m1") (str "met"))
        (str "m1") =
      some { mkMenteeRecord (str "m1") sampleMenteeInput with status := str "met" } ∧
    (updateMenteeStatus (createMentee [] (str "m1") sampleMenteeInput).1
        (str "m1") (str "met")).filter
        (fun it => !(it.pk == id2pk (str "m1") && it.sk == id2pk (str "m1"))) =
      (createMentee [] (str "m1") sampleMenteeInput).1.filter
        (fun it => !(it.pk == id2pk (str "m1") && it.sk == id2pk (str "m1"))) :=
  updateMenteeStatus_spec (createMentee [] (str "m1") sampleMenteeInput).1
    (str "m1") (str "met") (mkMenteeRecord (str "m1") sampleMenteeInput)
    (by decide)

/-- Helper: a fold of key deletes is the filter keeping the items whose
key is none of the deleted ones. -/
theorem foldl_deleteItem (sks : List Str) (start : List Item) (key : Str) :
    sks.foldl (fun acc sk => deleteItem acc key sk) start =
      start.filter (fun it =>
        sks.all (fun sk0 => !(it.pk == key && it.sk == sk0))) := by
  induction sks generalizing start with
  | nil => simp
  | cons s0 rest ih =>
    show rest.foldl _ (deleteItem start key s0) = _
    rw [ih]
    unfold deleteItem
    rw [List.filter_filter]
    apply List.filter_congr
    intro it _
    simp [List.all_cons, Bool.and_comm]

/-- C6: after `deleteMentee`, the mentee's note query is empty and the
mentee's own record is gone — provided every note item in the mentee's
partition has the sort key `"Note#" + its own id`, the shape in which
`createNote` writes notes (the delete reconstructs each note's sort key
from the note's id field). -/
theorem deleteMentee_spec (db : List Item) (menteeId : Str)
    (hwf : ∀ it ∈ db, it.pk = id2pk menteeId →
      (str "Note#").isPrefixOf it.sk = true →
      it.sk = id2NoteSk it.payload.itemId) :
    getNotesOfMentee (deleteMentee db menteeId) menteeId = [] ∧
    getMenteeById (deleteMentee db menteeId) menteeId = none := by
  have hdel : deleteMentee db menteeId =
      (deleteItem db (id2pk menteeId) (id2pk menteeId)).filter
        (fun it => ((getNotesOfMentee db menteeId).map
            (fun note => id2NoteSk note.payload.itemId)).all
          (fun sk0 => !(it.pk == id2pk menteeId && it.sk == sk0))) := by
    unfold deleteMentee
    exact foldl_deleteItem _ _ _
  have hmem : ∀ it, it ∈ deleteMentee db menteeId →
      it ∈ db ∧ (it.pk == id2pk menteeId && it.sk == id2pk menteeId) = false ∧
      (∀ sk0 ∈ (getNotesOfMentee db menteeId).map
          (fun note => id2NoteSk note.payload.itemId),
        (it.pk == id2pk menteeId && it.sk == sk0) = false) := by
    intro it hit
    rw [hdel] at hit
    have h2 := List.of_mem_filter hit
    have hit1 := List.mem_of_mem_filter hit
    have h1 := List.of_mem_filter hit1
    have hdb := List.mem_of_mem_filter hit1
    rw [Bool.not_eq_true'] at h1
    refine ⟨hdb, h1, ?_⟩
    intro sk0 hsk0
    have hz := List.all_eq_true.mp h2 sk0 hsk0
    rw [Bool.not_eq_true'] at hz
    exact hz
  constructor
  · show (deleteMentee db menteeId).filter _ = []
    rw [List.filter_eq_nil_iff]
    intro it hit hcond
    obtain ⟨hdb, hself, hall⟩ := hmem it hit
    simp only [Bool.and_eq_true, beq_iff_eq] at hcond
    obtain ⟨hpk, hpre⟩ := hcond
    have hsk := hwf it hdb hpk hpre
    have hin : it ∈ getNotesOfMentee db menteeId := by
      unfold getNotesOfMentee
      rw [List.mem_filter]
      exact ⟨hdb, by simp [hpk, hpre]⟩
    have hmap : id2NoteSk it.payload.itemId ∈
        (getNotesOfMentee db menteeId).map
          (fun note => id2NoteSk note.payload.itemId) :=
      List.mem_map_of_mem _ hin
    have hzero := hall _ hmap
    rw [← hsk] at hzero
    simp [hpk] at hzero
  · show ((deleteMentee db menteeId).filter
        (fun it => it.pk == id2pk menteeId && it.sk == id2pk menteeId)).head?.bind
        (fun it => it.payload.asMentee) = none
    have hnil : (deleteMentee db menteeId).filter
        (fun it => it.pk == id2pk menteeId && it.sk == id2pk menteeId) = [] := by
      rw [List.filter_eq_nil_iff]
      intro it hit hcond
      obtain ⟨_, hself, _⟩ := hmem it hit
      rw [hself] at hcond
      cases hcond
    rw [hnil]
    rfl

/-- C6 witness: the theorem instantiated at a store holding one mentee and
one of its notes, both freshly created. -/
theorem deleteMentee_spec_witness :
    getNotesOfMentee (deleteMentee
        (createNote (createMentee [] (str "m1") sampleMenteeInput).1
          (str "n1") (str "2024-03-01T00:00:00Z") (str "m1") (str "hello")
          (str "User#buddy@x.co"))
        (str "m1")) (str "m1") = [] ∧
    getMenteeById (deleteMentee
        (createNote (createMentee [] (str "m1") sampleMenteeInput).1
          (str "n1") (str "2024-03-01T00:00:00Z") (str "m1") (str "hello")
          (str "User#buddy@x.co"))
        (str "m1")) (str "m1") = none :=
  deleteMentee_spec
    (createNote (createMentee [] (str "m1") sampleMenteeInput).1
      (str "n1") (str "2024-03-01T00:00:00Z") (str "m1") (str "hello")
      (str "User#buddy@x.co"))
    (str "m1") (by decide)

/-- C10 witness: the theorem's absence case instantiated at a stored user
whose agreement end parses to a time not after now. -/
theorem getBuddyById_spec_witness :
    getBuddyById (fun _ => some 0) 5 [sampleLowerUser] (str "User#a@b.c") = none ∧
    getUserById [sampleLowerUser] (str "User#a@b.c") = some sampleLowerUser :=
  (getBuddyById_spec (fun _ => some 0) 5 [sampleLowerUser] (str "User#a@b.c")).2
    sampleLowerUser (by decide) (by intro t ht; cases ht; decide)

end IBuddy
